import Mathlib

/-!
Verification development for the pi-powershell session/process lifecycle manager.

The definitions below are a shallow embedding of the TypeScript source:

* `src/session/session-manager.ts` — the `PowerShellSessionManager` class:
  marker generation and the per-execution stdout/stderr data handlers of
  `executeInLocalSession`, the registry operations `createSession`,
  `executeInSession`, `getSession`, `listSessions`, `closeSession`, and the
  bridging-subprocess result mapping of `executeInRemoteSession`.
* `src/tools/powershell.ts` — `executePowerShellDirect` / `executePowerShell`
  and the background-job registry tools (`pwsh-stop-job`, `pwsh-remove-job`).

JavaScript strings are embedded as `List Char`.  JavaScript `Map` objects are
embedded as association lists with the `Map` key-uniqueness invariant made
explicit where a proof needs it.  Asynchronous subprocess behaviour (which
events fire, in which order, and with which payloads) is a parameter of each
embedded operation: an operation takes the observed event outcome as an
argument and returns its result together with the updated registry state and
the list of externally visible effects it performs (listener attach/detach,
stdin writes, process kills, file deletions).  Wall-clock times are `Nat`
parameters.
-/

/-- JavaScript strings are modelled as lists of characters. -/
abbrev Str := List Char

/-- Whitespace test used by `String.prototype.trim` and by the `\s` regex
class, restricted to the whitespace characters that actually occur in the
streams this program handles (space, tab, line feed, carriage return). -/
def isWSChar (c : Char) : Bool :=
  c = ' ' || c = '\t' || c = '\n' || c = '\r'

/-- Embedding of JavaScript `String.prototype.trim`: remove leading and
trailing whitespace. -/
def trimStr (s : Str) : Str :=
  ((s.dropWhile isWSChar).reverse.dropWhile isWSChar).reverse

/-- Embedding of JavaScript `String.prototype.includes`: `occursIn pat s`
decides whether `pat` occurs as a contiguous substring of `s`. -/
def occursIn (pat : Str) : Str → Bool
  | [] => pat.isEmpty
  | c :: t => pat.isPrefixOf (c :: t) || occursIn pat t

/-- `occursIn` agrees with the mathematical substring relation. -/
theorem occursIn_iff (pat s : Str) :
    occursIn pat s = true ↔ ∃ a b, a ++ pat ++ b = s := by
  induction s with
  | nil =>
    simp only [occursIn, List.isEmpty_iff]
    constructor
    · rintro rfl
      exact ⟨[], [], rfl⟩
    · rintro ⟨a, b, h⟩
      rcases List.append_eq_nil.mp h with ⟨h1, h2⟩
      exact (List.append_eq_nil.mp h1).2
  | cons c t ih =>
    simp only [occursIn, Bool.or_eq_true, List.isPrefixOf_iff_prefix, ih]
    constructor
    · rintro (⟨u, hu⟩ | ⟨a, b, h⟩)
      · exact ⟨[], u, by simpa using hu⟩
      · exact ⟨c :: a, b, by simp [h]⟩
    · rintro ⟨a, b, h⟩
      cases a with
      | nil => exact Or.inl ⟨b, by simpa using h⟩
      | cons a0 a' =>
        right
        have h' : a0 = c ∧ a' ++ (pat ++ b) = t := by simpa using h
        refine ⟨a', b, ?_⟩
        rw [List.append_assoc]
        exact h'.2

/-- Decimal digit character, as produced by JavaScript number-to-string
conversion for a single digit value. -/
def decDigit : Nat → Char
  | 0 => '0' | 1 => '1' | 2 => '2' | 3 => '3' | 4 => '4'
  | 5 => '5' | 6 => '6' | 7 => '7' | 8 => '8' | 9 => '9'
  | _ => '*'

/-- Digit test: the character codes of `'0'`–`'9'`. -/
def isDig (c : Char) : Bool := 48 ≤ c.toNat && c.toNat ≤ 57

/-- Fuel-driven decimal rendering of a natural number (most significant digit
first); `natChars` supplies sufficient fuel. -/
def natCharsGo : Nat → Nat → Str
  | 0, _ => []
  | fuel + 1, n =>
    if n < 10 then [decDigit n]
    else natCharsGo fuel (n / 10) ++ [decDigit (n % 10)]

/-- Embedding of JavaScript template interpolation `${n}` for the (integral,
non-negative) command counter: the decimal representation of `n`. -/
def natChars (n : Nat) : Str := natCharsGo (n + 1) n

theorem decDigit_isDig {k : Nat} (h : k < 10) : isDig (decDigit k) = true := by
  interval_cases k <;> decide

theorem decDigit_inj {a b : Nat} (ha : a < 10) (hb : b < 10)
    (h : decDigit a = decDigit b) : a = b := by
  revert h
  interval_cases a <;> interval_cases b <;> decide

theorem natCharsGo_isDig {fuel n : Nat} {c : Char}
    (h : c ∈ natCharsGo fuel n) : isDig c = true := by
  induction fuel generalizing n with
  | zero => simp [natCharsGo] at h
  | succ fuel ih =>
    by_cases h10 : n < 10
    · simp only [natCharsGo, if_pos h10, List.mem_singleton] at h
      exact h ▸ decDigit_isDig h10
    · simp only [natCharsGo, if_neg h10, List.mem_append, List.mem_singleton] at h
      rcases h with h | h
      · exact ih h
      · exact h ▸ decDigit_isDig (Nat.mod_lt _ (by omega))

theorem natChars_isDig {n : Nat} {c : Char} (h : c ∈ natChars n) :
    isDig c = true := natCharsGo_isDig h

theorem natCharsGo_ne_nil {fuel n : Nat} (h : 0 < fuel) :
    natCharsGo fuel n ≠ [] := by
  cases fuel with
  | zero => omega
  | succ fuel =>
    by_cases h10 : n < 10
    · simp [natCharsGo, if_pos h10]
    · simp only [natCharsGo, if_neg h10]
      intro hc
      rcases List.append_eq_nil.mp hc with ⟨-, h2⟩
      exact List.noConfusion h2

theorem natCharsGo_fuel {f g n : Nat} (hf : n < f) (hg : n < g) :
    natCharsGo f n = natCharsGo g n := by
  induction f generalizing g n with
  | zero => omega
  | succ f ih =>
    cases g with
    | zero => omega
    | succ g =>
      by_cases h10 : n < 10
      · simp [natCharsGo, if_pos h10]
      · have hd : n / 10 < n := Nat.div_lt_self (by omega) (by omega)
        simp only [natCharsGo, if_neg h10]
        have heq : natCharsGo f (n / 10) = natCharsGo g (n / 10) :=
          ih (by omega) (by omega)
        rw [heq]

theorem natCharsGo_inj {f m n : Nat} (hm : m < f) (hn : n < f)
    (h : natCharsGo f m = natCharsGo f n) : m = n := by
  induction f generalizing m n with
  | zero => omega
  | succ f ih =>
    by_cases hm10 : m < 10 <;> by_cases hn10 : n < 10
    · simp only [natCharsGo, if_pos hm10, if_pos hn10, List.cons.injEq] at h
      exact decDigit_inj hm10 hn10 h.1
    · exfalso
      simp only [natCharsGo, if_pos hm10, if_neg hn10] at h
      have hne := @natCharsGo_ne_nil f (n / 10)
        (by have := @Nat.div_lt_self n 10 (by omega) (by omega); omega)
      cases he : natCharsGo f (n / 10) with
      | nil => exact hne he
      | cons x xs =>
        rw [he] at h
        have := congrArg List.length h
        simp at this
    · exfalso
      simp only [natCharsGo, if_neg hm10, if_pos hn10] at h
      have hne := @natCharsGo_ne_nil f (m / 10)
        (by have := @Nat.div_lt_self m 10 (by omega) (by omega); omega)
      cases he : natCharsGo f (m / 10) with
      | nil => exact hne he
      | cons x xs =>
        rw [he] at h
        have := congrArg List.length h
        simp at this
    · simp only [natCharsGo, if_neg hm10, if_neg hn10] at h
      have hmd : m / 10 < f := by
        have := @Nat.div_lt_self m 10 (by omega) (by omega); omega
      have hnd : n / 10 < f := by
        have := @Nat.div_lt_self n 10 (by omega) (by omega); omega
      rcases List.append_inj' h (by simp) with ⟨h1, h2⟩
      have hmod : m % 10 = n % 10 :=
        decDigit_inj (Nat.mod_lt _ (by omega)) (Nat.mod_lt _ (by omega))
          (by simpa using h2)
      have hdiv : m / 10 = n / 10 := ih hmd hnd h1
      omega

/-- The decimal rendering is injective: distinct correlation ids always yield
distinct digit strings. -/
theorem natChars_inj {m n : Nat} (h : natChars m = natChars n) : m = n := by
  have hm : natCharsGo (m + n + 1) m = natCharsGo (m + 1) m :=
    natCharsGo_fuel (by omega) (by omega)
  have hn : natCharsGo (m + n + 1) n = natCharsGo (n + 1) n :=
    natCharsGo_fuel (by omega) (by omega)
  exact natCharsGo_inj (f := m + n + 1) (by omega) (by omega)
    (by rw [hm, hn]; exact h)

/- Sentinel markers generated by `executeInLocalSession` (session-manager.ts
lines 280-282): `---START-${cmdId}---`, `---END-${cmdId}---`, and the end
marker's two completion variants as matched by the data handler. -/

/-- `---START-${cmdId}---` -/
def startMarker (cmdId : Nat) : Str :=
  "---START-".data ++ natChars cmdId ++ "---".data

/-- `---END-${cmdId}---` -/
def endMarker (cmdId : Nat) : Str :=
  "---END-".data ++ natChars cmdId ++ "---".data

/-- `${endMarker}:SUCCESS` -/
def endSuccessMarker (cmdId : Nat) : Str := endMarker cmdId ++ ":SUCCESS".data

/-- `${endMarker}:ERROR` -/
def endErrorMarker (cmdId : Nat) : Str := endMarker cmdId ++ ":ERROR".data

theorem endSuccessMarker_eq (n : Nat) :
    endSuccessMarker n = "---END-".data ++ natChars n ++ "---:SUCCESS".data := by
  have h3 : "---".data ++ ":SUCCESS".data = "---:SUCCESS".data := by decide
  simp only [endSuccessMarker, endMarker, List.append_assoc, h3]

theorem endErrorMarker_eq (n : Nat) :
    endErrorMarker n = "---END-".data ++ natChars n ++ "---:ERROR".data := by
  have h3 : "---".data ++ ":ERROR".data = "---:ERROR".data := by decide
  simp only [endErrorMarker, endMarker, List.append_assoc, h3]

/-- A pattern containing a character absent from `s` never occurs in `s`. -/
theorem occursIn_eq_false_of_mem_of_not_mem {pat s : Str} {c : Char}
    (hc : c ∈ pat) (hs : c ∉ s) : occursIn pat s = false := by
  cases h : occursIn pat s
  · rfl
  · exfalso
    rcases (occursIn_iff pat s).mp h with ⟨a, b, hab⟩
    apply hs
    rw [← hab]
    simp only [List.append_assoc, List.mem_append]
    exact Or.inr (Or.inl hc)

/-- Characters that are not digits and avoid both fixed marker segments do not
occur in a `fixed ++ digits ++ fixed` marker string. -/
theorem char_not_mem_marker {c : Char} {a b : Str} {m : Nat}
    (ha : c ∉ a) (hb : c ∉ b) (hd : isDig c = false) :
    c ∉ a ++ natChars m ++ b := by
  simp only [List.append_assoc, List.mem_append]
  rintro (h | h | h)
  · exact ha h
  · exact absurd (natChars_isDig h) (by simp [hd])
  · exact hb h

/-- All-digit payloads flanked by identical delimiters are forced equal when
one delimited occurrence sits inside the other, given the delimiter opens with
a dash (a non-digit). -/
theorem digits_delim_eq {D D' r t : Str}
    (hD : ∀ c ∈ D, isDig c = true) (hD' : ∀ c ∈ D', isDig c = true)
    (h : D' ++ ('-' :: r ++ t) = D ++ '-' :: r) : D' = D := by
  induction D' generalizing D with
  | nil =>
    cases D with
    | nil => rfl
    | cons d D2 =>
      exfalso
      simp only [List.nil_append, List.cons_append, List.cons.injEq] at h
      have hdig : isDig d = true := hD d (by simp)
      rw [← h.1] at hdig
      exact absurd hdig (by decide)
  | cons a D2' ih =>
    cases D with
    | nil =>
      exfalso
      simp only [List.cons_append, List.nil_append, List.cons.injEq] at h
      have hdig : isDig a = true := hD' a (by simp)
      rw [h.1] at hdig
      exact absurd hdig (by decide)
    | cons d D2 =>
      simp only [List.cons_append, List.cons.injEq] at h
      have : D2' = D2 :=
        ih (fun c hc => hD c (by simp [hc])) (fun c hc => hD' c (by simp [hc]))
          (by simpa using h.2)
      simp [h.1, this]

/-- Core sentinel-disjointness lemma: an occurrence of the delimited token
`pre ++ D' ++ post` inside `pre ++ D ++ post` (both payloads all digits)
forces `D' = D`, provided `pre` carries an anchor character `ch` at a unique
position, `ch` is neither a digit nor present in `post`, and `post` opens
with a dash. -/
theorem token_occurrence_eq (pre post D D' : Str) (ch : Char) (k : Nat)
    (huniq : ∀ j, pre[j]? = some ch → j = k)
    (hk : pre[k]? = some ch)
    (hchd : isDig ch = false)
    (hchpost : ch ∉ post)
    (hD : ∀ c ∈ D, isDig c = true)
    (hD' : ∀ c ∈ D', isDig c = true)
    (r : Str) (hpost : post = '-' :: r)
    (hocc : occursIn (pre ++ D' ++ post) (pre ++ D ++ post) = true) :
    D' = D := by
  rcases (occursIn_iff _ _).mp hocc with ⟨s, t, heq⟩
  have hk_lt : k < pre.length := by
    by_contra hc
    rw [List.getElem?_eq_none (by omega)] at hk
    exact Option.noConfusion hk
  -- the anchor character of the inner occurrence sits at index s.length + k
  have h1 : (pre ++ D ++ post)[s.length + k]? = some ch := by
    rw [← heq]
    have e1 : (s ++ (pre ++ D' ++ post) ++ t)[s.length + k]? =
        (s ++ (pre ++ D' ++ post))[s.length + k]? :=
      List.getElem?_append_left (by simp; omega)
    have e2 : (s ++ (pre ++ D' ++ post))[s.length + k]? =
        (pre ++ D' ++ post)[s.length + k - s.length]? :=
      List.getElem?_append_right (by omega)
    have e3 : (pre ++ D' ++ post)[k]? = (pre ++ D')[k]? :=
      List.getElem?_append_left (by simp; omega)
    have e4 : (pre ++ D')[k]? = pre[k]? :=
      List.getElem?_append_left hk_lt
    rw [e1, e2]
    simp only [Nat.add_sub_cancel_left]
    rw [e3, e4]
    exact hk
  -- but the anchor occurs in `pre ++ D ++ post` only at index k
  have h2 : s.length + k = k := by
    by_cases hj1 : s.length + k < pre.length
    · apply huniq
      have e1 : (pre ++ D ++ post)[s.length + k]? = (pre ++ D)[s.length + k]? :=
        List.getElem?_append_left (by simp; omega)
      have e2 : (pre ++ D)[s.length + k]? = pre[s.length + k]? :=
        List.getElem?_append_left hj1
      rw [e1, e2] at h1
      exact h1
    · exfalso
      by_cases hj2 : s.length + k < pre.length + D.length
      · have e1 : (pre ++ D ++ post)[s.length + k]? = (pre ++ D)[s.length + k]? :=
          List.getElem?_append_left (by simp; omega)
        have e2 : (pre ++ D)[s.length + k]? = D[s.length + k - pre.length]? :=
          List.getElem?_append_right (by omega)
        rw [e1, e2] at h1
        have : ch ∈ D := List.getElem?_mem h1
        exact absurd (hD ch this) (by simp [hchd])
      · have e1 : (pre ++ D ++ post)[s.length + k]? =
            post[s.length + k - (pre ++ D).length]? :=
          List.getElem?_append_right (by simp; omega)
        rw [e1] at h1
        exact hchpost (List.getElem?_mem h1)
  have hs : s = [] := by
    have : s.length = 0 := by omega
    exact List.eq_nil_of_length_eq_zero this
  subst hs
  simp only [List.nil_append] at heq
  have heq' : pre ++ (D' ++ (post ++ t)) = pre ++ (D ++ post) := by
    simpa [List.append_assoc] using heq
  have hcore : D' ++ (post ++ t) = D ++ post := List.append_cancel_left heq'
  subst hpost
  exact digits_delim_eq hD hD' (by simpa using hcore)

/- Embedding of the per-execution capture logic of `executeInLocalSession`
(session-manager.ts lines 296-352). -/

/-- Mutable capture variables of one local execution: `stdout`, `stderr`,
`capturing`, `completed` (lines 296-299). -/
structure CaptureState where
  stdout : Str
  stderr : Str
  capturing : Bool
  completed : Bool
deriving DecidableEq

/-- Initial capture state: empty buffers, not capturing, not completed. -/
def initCapture : CaptureState := ⟨[], [], false, false⟩

/-- The record passed to `resolve` when an end sentinel is matched, minus the
`sessionInfo` snapshot (which the session-level wrappers below add). -/
structure LocalResult where
  stdout : Str
  stderr : Str
  success : Bool
deriving DecidableEq

/-- Fuel-driven scan embedding JavaScript
`replace(new RegExp(tok + "\\s*", "g"), "")`: scan left to right and delete
every occurrence of `tok` together with the whitespace run that follows it.
`stripTok` supplies sufficient fuel. -/
def stripGo (tok : Str) : Nat → Str → Str
  | _, [] => []
  | 0, s => s
  | fuel + 1, c :: rest =>
    if tok.isPrefixOf (c :: rest) && !tok.isEmpty then
      stripGo tok fuel (((c :: rest).drop tok.length).dropWhile isWSChar)
    else c :: stripGo tok fuel rest

def stripTok (tok s : Str) : Str := stripGo tok s.length s

/-- `stdout.replace(new RegExp(startMarker + "\\s*", "g"), "").trim()`
(lines 321 and 331). -/
def cleanOutput (cmdId : Nat) (out : Str) : Str :=
  trimStr (stripTok (startMarker cmdId) out)

/-- Embedding of the `dataHandler` closure (lines 308-343): the effect of one
stdout data event on the capture variables, together with the record passed
to `resolve` when an end sentinel is matched in that event's text. -/
def dataHandler (cmdId : Nat) (st : CaptureState) (text : Str) :
    CaptureState × Option LocalResult :=
  if occursIn (startMarker cmdId) text then
    ({ st with stdout := [], stderr := [], capturing := true }, none)
  else if st.capturing then
    if occursIn (endSuccessMarker cmdId) text then
      ({ st with completed := true },
        some ⟨cleanOutput cmdId st.stdout, trimStr st.stderr, true⟩)
    else if occursIn (endErrorMarker cmdId) text then
      ({ st with completed := true },
        some ⟨cleanOutput cmdId st.stdout, trimStr st.stderr, false⟩)
    else ({ st with stdout := st.stdout ++ text }, none)
  else (st, none)

/-- Embedding of the `errorHandler` closure (lines 345-349): one stderr data
event. -/
def errorHandler (st : CaptureState) (text : Str) : CaptureState :=
  if st.capturing then { st with stderr := st.stderr ++ text } else st

/-- One observable data event on the subprocess's merged channels. -/
inductive SEvent where
  | outData (text : Str)
  | errData (text : Str)
deriving DecidableEq

def sessionStep (cmdId : Nat) (st : CaptureState) :
    SEvent → CaptureState × Option LocalResult
  | .outData t => dataHandler cmdId st t
  | .errData t => (errorHandler st t, none)

/-- Process the data events observed before the execution's timeout fires.
After a finalizing event, `cleanup()` detaches both handlers, so subsequent
events are not seen.  `none` means no end sentinel was ever matched, in which
case the timeout path rejects. -/
def runEvents (cmdId : Nat) (st : CaptureState) :
    List SEvent → Option LocalResult
  | [] => none
  | e :: rest =>
    match sessionStep cmdId st e with
    | (_, some r) => some r
    | (st2, none) => runEvents cmdId st2 rest

/-- The framed command text written to the interactive subprocess's stdin
(template of lines 285-294 plus the trailing newline appended at line 364). -/
def wrappedCommand (cmdId : Nat) (command : Str) : Str :=
  "\nWrite-Host \"".data ++ startMarker cmdId
    ++ "\"\ntry \x7b\n\t".data ++ command
    ++ "\n\tWrite-Host \"".data ++ endMarker cmdId
    ++ ":SUCCESS\"\n\x7d catch \x7b\n\tWrite-Error $_.Exception.Message\n\tWrite-Host \"".data
    ++ endMarker cmdId ++ ":ERROR\"\n\x7d\n".data ++ "\n".data

/- Sentinel id-exactness: markers of one correlation id never occur inside
sentinel-shaped text carrying a different id. -/

theorem anchor_start : ∀ j, ("---START-".data)[j]? = some 'A' → j = 5 := by
  intro j hj
  have hlen : j < 9 := by
    by_contra hc
    rw [List.getElem?_eq_none (by simp; omega)] at hj
    exact Option.noConfusion hj
  interval_cases j <;> simp_all

theorem anchor_end : ∀ j, ("---END-".data)[j]? = some 'N' → j = 4 := by
  intro j hj
  have hlen : j < 7 := by
    by_contra hc
    rw [List.getElem?_eq_none (by simp; omega)] at hj
    exact Option.noConfusion hj
  interval_cases j <;> simp_all

theorem startMarker_cross {m n : Nat} (h : m ≠ n) :
    occursIn (startMarker n) (startMarker m) = false := by
  cases hb : occursIn (startMarker n) (startMarker m)
  · rfl
  · exfalso
    have hDD : natChars n = natChars m :=
      token_occurrence_eq "---START-".data "---".data (natChars m) (natChars n)
        'A' 5 anchor_start (by decide) (by decide) (by decide)
        (fun c hc => natChars_isDig hc) (fun c hc => natChars_isDig hc)
        "--".data (by decide) hb
    exact h (natChars_inj hDD).symm

theorem endSuccessMarker_cross {m n : Nat} (h : m ≠ n) :
    occursIn (endSuccessMarker n) (endSuccessMarker m) = false := by
  rw [endSuccessMarker_eq, endSuccessMarker_eq]
  cases hb : occursIn ("---END-".data ++ natChars n ++ "---:SUCCESS".data)
      ("---END-".data ++ natChars m ++ "---:SUCCESS".data)
  · rfl
  · exfalso
    have hDD : natChars n = natChars m :=
      token_occurrence_eq "---END-".data "---:SUCCESS".data (natChars m)
        (natChars n) 'N' 4 anchor_end (by decide) (by decide) (by decide)
        (fun c hc => natChars_isDig hc) (fun c hc => natChars_isDig hc)
        "--:SUCCESS".data (by decide) hb
    exact h (natChars_inj hDD).symm

theorem endErrorMarker_cross {m n : Nat} (h : m ≠ n) :
    occursIn (endErrorMarker n) (endErrorMarker m) = false := by
  rw [endErrorMarker_eq, endErrorMarker_eq]
  cases hb : occursIn ("---END-".data ++ natChars n ++ "---:ERROR".data)
      ("---END-".data ++ natChars m ++ "---:ERROR".data)
  · rfl
  · exfalso
    have hDD : natChars n = natChars m :=
      token_occurrence_eq "---END-".data "---:ERROR".data (natChars m)
        (natChars n) 'N' 4 anchor_end (by decide) (by decide) (by decide)
        (fun c hc => natChars_isDig hc) (fun c hc => natChars_isDig hc)
        "--:ERROR".data (by decide) hb
    exact h (natChars_inj hDD).symm

theorem startMarker_not_in_endSuccess (m n : Nat) :
    occursIn (startMarker n) (endSuccessMarker m) = false := by
  rw [endSuccessMarker_eq]
  exact @occursIn_eq_false_of_mem_of_not_mem _ _ 'A' (by simp [startMarker])
    (char_not_mem_marker (by decide) (by decide) (by decide))

theorem startMarker_not_in_endError (m n : Nat) :
    occursIn (startMarker n) (endErrorMarker m) = false := by
  rw [endErrorMarker_eq]
  exact @occursIn_eq_false_of_mem_of_not_mem _ _ 'A' (by simp [startMarker])
    (char_not_mem_marker (by decide) (by decide) (by decide))

theorem endSuccess_not_in_startMarker (m n : Nat) :
    occursIn (endSuccessMarker n) (startMarker m) = false := by
  rw [endSuccessMarker_eq]
  exact @occursIn_eq_false_of_mem_of_not_mem _ _ 'E' (by simp)
    (@char_not_mem_marker 'E' "---START-".data _ _ (by decide) (by decide) (by decide))

theorem endError_not_in_startMarker (m n : Nat) :
    occursIn (endErrorMarker n) (startMarker m) = false := by
  rw [endErrorMarker_eq]
  exact @occursIn_eq_false_of_mem_of_not_mem _ _ 'E' (by simp)
    (@char_not_mem_marker 'E' "---START-".data _ _ (by decide) (by decide) (by decide))

theorem endError_not_in_endSuccess (m n : Nat) :
    occursIn (endErrorMarker n) (endSuccessMarker m) = false := by
  rw [endErrorMarker_eq, endSuccessMarker_eq]
  exact @occursIn_eq_false_of_mem_of_not_mem _ _ 'R' (by simp)
    (char_not_mem_marker (by decide) (by decide) (by decide))

theorem endSuccess_not_in_endError (m n : Nat) :
    occursIn (endSuccessMarker n) (endErrorMarker m) = false := by
  rw [endSuccessMarker_eq, endErrorMarker_eq]
  exact @occursIn_eq_false_of_mem_of_not_mem _ _ 'U' (by simp)
    (char_not_mem_marker (by decide) (by decide) (by decide))

/-- C2: sentinel matching in the local-session capture is id-exact.  While
execution `n` is awaited, a data event whose text is a sentinel-shaped string
carrying a different correlation id `m` (start marker, end-success marker, or
end-error marker) never begins capture, never finalizes it, and never marks
the execution completed: the handler treats such text as ordinary output. -/
theorem c2_sentinel_id_exact (m n : Nat) (hmn : m ≠ n) (st : CaptureState) :
    ((dataHandler n st (startMarker m)).2 = none
      ∧ (dataHandler n st (startMarker m)).1.capturing = st.capturing
      ∧ (dataHandler n st (startMarker m)).1.completed = st.completed)
    ∧ ((dataHandler n st (endSuccessMarker m)).2 = none
      ∧ (dataHandler n st (endSuccessMarker m)).1.capturing = st.capturing
      ∧ (dataHandler n st (endSuccessMarker m)).1.completed = st.completed)
    ∧ ((dataHandler n st (endErrorMarker m)).2 = none
      ∧ (dataHandler n st (endErrorMarker m)).1.capturing = st.capturing
      ∧ (dataHandler n st (endErrorMarker m)).1.completed = st.completed) := by
  have h1 := startMarker_cross hmn
  have h2 := endSuccessMarker_cross hmn
  have h3 := endErrorMarker_cross hmn
  have h4 := startMarker_not_in_endSuccess m n
  have h5 := startMarker_not_in_endError m n
  have h6 := endSuccess_not_in_startMarker m n
  have h7 := endError_not_in_startMarker m n
  have h8 := endError_not_in_endSuccess m n
  have h9 := endSuccess_not_in_endError m n
  by_cases hc : st.capturing <;>
    simp [dataHandler, h1, h2, h3, h4, h5, h6, h7, h8, h9, hc]

/-- Witness for C2 at `m = 2`, `n = 1`, with capture in progress. -/
theorem c2_sentinel_id_exact_witness :
    (2 : Nat) ≠ 1 ∧
    (((dataHandler 1 ⟨[], [], true, false⟩ (startMarker 2)).2 = none
      ∧ (dataHandler 1 ⟨[], [], true, false⟩ (startMarker 2)).1.capturing = true
      ∧ (dataHandler 1 ⟨[], [], true, false⟩ (startMarker 2)).1.completed = false)
    ∧ ((dataHandler 1 ⟨[], [], true, false⟩ (endSuccessMarker 2)).2 = none
      ∧ (dataHandler 1 ⟨[], [], true, false⟩ (endSuccessMarker 2)).1.capturing = true
      ∧ (dataHandler 1 ⟨[], [], true, false⟩ (endSuccessMarker 2)).1.completed = false)
    ∧ ((dataHandler 1 ⟨[], [], true, false⟩ (endErrorMarker 2)).2 = none
      ∧ (dataHandler 1 ⟨[], [], true, false⟩ (endErrorMarker 2)).1.capturing = true
      ∧ (dataHandler 1 ⟨[], [], true, false⟩ (endErrorMarker 2)).1.completed = false)) :=
  ⟨by decide, c2_sentinel_id_exact 2 1 (by decide) ⟨[], [], true, false⟩⟩

/-- C10: a data chunk containing the start marker is consumed whole by the
start-detection branch.  The buffered stdout and stderr are reset to empty,
capture (re)starts, and any bytes following the start marker inside that same
chunk are discarded: the remaining processing continues from the reset state
and is entirely independent of the chunk's contents, so those bytes never
appear in the execution's resolved stdout. -/
theorem c10_start_chunk_consumed (n : Nat) (st : CaptureState) (text : Str)
    (h : occursIn (startMarker n) text = true) :
    dataHandler n st text =
      ({ st with stdout := [], stderr := [], capturing := true }, none)
    ∧ ∀ events, runEvents n st (.outData text :: events) =
        runEvents n { st with stdout := [], stderr := [], capturing := true } events := by
  refine ⟨by simp [dataHandler, h], fun evs => ?_⟩
  simp [runEvents, sessionStep, dataHandler, h]

/-- Witness for C10: a chunk carrying the start marker plus trailing command
output, arriving while earlier output is buffered. -/
theorem c10_start_chunk_consumed_witness :
    occursIn (startMarker 1) "---START-1---\nTRAILING".data = true ∧
    (dataHandler 1 ⟨"old".data, "err".data, true, false⟩ "---START-1---\nTRAILING".data =
      (⟨[], [], true, false⟩, none)
    ∧ ∀ events,
        runEvents 1 ⟨"old".data, "err".data, true, false⟩
          (.outData "---START-1---\nTRAILING".data :: events) =
        runEvents 1 ⟨[], [], true, false⟩ events) :=
  ⟨by decide, c10_start_chunk_consumed 1 _ _ (by decide)⟩

/-- C1 (code-bug exhibit): sentinel detection is per-chunk, not cumulative,
so the finalized result depends on how the subprocess's output stream is
fragmented into data events.  For the stream
`---START-1---\nhello\n---END-1---:SUCCESS\n`: delivered line by line the
capture finalizes successfully with stdout `hello`; delivered as one chunk
the start branch consumes everything and the capture never finalizes (the
execution times out); and a delivery that splits the end sentinel across two
chunks also never finalizes.  The spec requires all fragmentations to agree
with the one-chunk delivery. -/
theorem c1_per_chunk_matching_evaluated :
    runEvents 1 initCapture
        [.outData "---START-1---\nhello\n---END-1---:SUCCESS\n".data] = none
    ∧ runEvents 1 initCapture
        [.outData "---START-1---\n".data, .outData "hello\n".data,
         .outData "---END-1---:SUCCESS\n".data] =
      some ⟨"hello".data, [], true⟩
    ∧ runEvents 1 initCapture
        [.outData "---START-1---\n".data, .outData "hello\n".data,
         .outData "---END-1-".data, .outData "--:SUCCESS\n".data] = none := by
  decide

/- JavaScript `Map` embedding: association lists over string keys, with the
`Map` key-uniqueness invariant `MapWF` made explicit where a proof needs it. -/

def alookup {α : Type} : List (Str × α) → Str → Option α
  | [], _ => none
  | (k, v) :: rest, n => if k = n then some v else alookup rest n

def aset {α : Type} : List (Str × α) → Str → α → List (Str × α)
  | [], n, e => [(n, e)]
  | (k, v) :: rest, n, e =>
    if k = n then (n, e) :: rest else (k, v) :: aset rest n e

def adelete {α : Type} : List (Str × α) → Str → List (Str × α)
  | [], _ => []
  | (k, v) :: rest, n => if k = n then rest else (k, v) :: adelete rest n

/-- The `Map` invariant: no duplicate keys. -/
abbrev MapWF {α : Type} (m : List (Str × α)) : Prop := (m.map Prod.fst).Nodup

theorem alookup_eq_none_of_not_mem {α : Type} {m : List (Str × α)} {n : Str}
    (h : n ∉ m.map Prod.fst) : alookup m n = none := by
  induction m with
  | nil => rfl
  | cons p rest ih =>
    obtain ⟨k, v⟩ := p
    simp only [List.map_cons, List.mem_cons, not_or] at h
    have hkn : k ≠ n := fun hk => h.1 hk.symm
    simp only [alookup, if_neg hkn]
    exact ih h.2

theorem alookup_adelete_self {α : Type} {m : List (Str × α)} (hwf : MapWF m)
    (n : Str) : alookup (adelete m n) n = none := by
  induction m with
  | nil => rfl
  | cons p rest ih =>
    obtain ⟨k, v⟩ := p
    rw [MapWF, List.map_cons, List.nodup_cons] at hwf
    by_cases hk : k = n
    · simp only [adelete, if_pos hk]
      exact alookup_eq_none_of_not_mem (hk ▸ hwf.1)
    · simp only [adelete, if_neg hk, alookup, if_neg hk]
      exact ih hwf.2

theorem alookup_aset_self {α : Type} (m : List (Str × α)) (n : Str) (v : α) :
    alookup (aset m n v) n = some v := by
  induction m with
  | nil => simp [aset, alookup]
  | cons p rest ih =>
    obtain ⟨k, w⟩ := p
    by_cases hk : k = n
    · simp [aset, if_pos hk, alookup]
    · simp only [aset, if_neg hk, alookup, if_neg hk]
      exact ih

/- Session registry data model (session-manager.ts lines 17-52).  The
embedding keeps the `PSSessionInfo` fields the claims quantify over; the
generated `id`/`runspaceId` strings and the remote option block are not
modelled.  `Date` values are `Nat` parameters. -/

inductive SessState where
  | connecting | connected | disconnected | failed
deriving DecidableEq

structure SessionInfo where
  name : Str
  state : SessState
  computerName : Str
  isLocal : Bool
  createdAt : Nat
  lastUsed : Nat
deriving DecidableEq

/-- One value of the `sessions` map: the info record, the optional
subprocess handle (modelled by its pid), and the `connected` flag.  The
`commandQueue` array is allocated but never consumed by the source, so it is
not modelled. -/
structure SessionEntry where
  info : SessionInfo
  processId : Option Nat
  connected : Bool
deriving DecidableEq

abbrev Registry := List (Str × SessionEntry)

inductive SessError where
  | duplicateSession
  | sessionNotFound
  | notConnected
  | sessionInitTimeout
  | sessionStartFailure
  | commandTimeout
  | remoteExecutionFailure
deriving DecidableEq

/-- Externally visible actions a registry operation performs, in order. -/
inductive Effect where
  | attachListeners
  | detachListeners
  | writeStdin (text : Str)
  | killProcess (pid : Nat)
  | remoteRemoveCall
  | emitCreated
  | emitClosed
deriving DecidableEq

/-- Observable outcome of the local-session initialization race in
`createLocalSession` (lines 158-248): the PSREADY probe succeeds first, the
spawn errors first, or the 10s initialization timeout elapses first. -/
inductive InitOutcome where
  | ready (pid : Nat)
  | spawnError
  | initTimeout (pid : Nat)
deriving DecidableEq

/-- Embedding of `createSession` (lines 61-87) with `createLocalSession`
(158-248) and `createRemoteSession` (254-268) inlined.  The duplicate-name
check precedes every mutation; the local path registers the session only in
the PSREADY handler, so a failed initialization leaves the registry
untouched; the remote path registers immediately and optimistically. -/
def createSession (reg : Registry) (name : Str) (computerName : Option Str)
    (now : Nat) (outcome : InitOutcome) :
    Except SessError SessionInfo × Registry × List Effect :=
  if (alookup reg name).isSome then (.error .duplicateSession, reg, [])
  else
    let isLocal := computerName.isNone
    let info0 : SessionInfo :=
      { name := name, state := .connecting,
        computerName := computerName.getD "localhost".data,
        isLocal := isLocal, createdAt := now, lastUsed := now }
    if isLocal then
      match outcome with
      | .ready pid =>
        let info := { info0 with state := .connected }
        (.ok info, aset reg name ⟨info, some pid, true⟩, [.emitCreated])
      | .spawnError => (.error .sessionStartFailure, reg, [])
      | .initTimeout pid => (.error .sessionInitTimeout, reg, [.killProcess pid])
    else
      let info := { info0 with state := .connected }
      (.ok info, aset reg name ⟨info, none, true⟩, [.emitCreated])

/-- Embedding of `closeSession` (lines 124-145): a missing name returns
immediately; otherwise the local subprocess is sent `exit` and SIGTERM (or a
best-effort remote removal is issued), the entry is deleted, and
`sessionClosed` is emitted.  No path throws. -/
def closeSession (reg : Registry) (name : Str) : Registry × List Effect :=
  match alookup reg name with
  | none => (reg, [])
  | some e =>
    let effs :=
      match e.processId with
      | some pid => [Effect.writeStdin "exit\n".data, Effect.killProcess pid]
      | none => if e.info.isLocal then [] else [Effect.remoteRemoveCall]
    (adelete reg name, effs ++ [Effect.emitClosed])

/-- The `SessionResult` record (lines 30-35). -/
structure SessionResult where
  stdout : Str
  stderr : Str
  success : Bool
  sessionInfo : SessionInfo
deriving DecidableEq

/-- Embedding of `executeInLocalSession` (lines 273-366).  `events` is the
stdout/stderr data observed before the execution's timeout would fire; a
`none` from `runEvents` means the timeout elapsed first.  The returned entry
is the session record after the call (the closure never assigns to it), and
the effect list records the listener attach, the framed stdin write, and the
`cleanup()` detach; no path kills the subprocess. -/
def executeInLocalSession (e : SessionEntry) (cmdId : Nat) (command : Str)
    (events : List SEvent) :
    Except SessError SessionResult × SessionEntry × List Effect :=
  if e.processId.isNone || !e.connected then (.error .notConnected, e, [])
  else
    let effs := [Effect.attachListeners,
                 Effect.writeStdin (wrappedCommand cmdId command),
                 Effect.detachListeners]
    match runEvents cmdId initCapture events with
    | some r => (.ok ⟨r.stdout, r.stderr, r.success, e.info⟩, e, effs)
    | none => (.error .commandTimeout, e, effs)

/-- Observable outcome of the bridging subprocess spawned by
`executeInRemoteSession` (lines 408-448): it closes with an exit code before
the timeout, it fails to spawn, or the timeout fires first (killing it). -/
inductive RemoteOutcome where
  | closed (stdout stderr : Str) (code : Option Int)
  | spawnFailed
  | timedOut (pid : Nat)
deriving DecidableEq

/-- Embedding of `executeInRemoteSession` (lines 371-449): on close the exit
code maps directly to the success flag (`success: code === 0`); a spawn error
rejects; a timeout kills the bridging subprocess and rejects. -/
def executeInRemoteSession (e : SessionEntry) (o : RemoteOutcome) :
    Except SessError SessionResult × List Effect :=
  match o with
  | .closed so se c =>
    (.ok ⟨trimStr so, trimStr se,
      (match c with | some x => x == 0 | none => false), e.info⟩, [])
  | .spawnFailed => (.error .remoteExecutionFailure, [])
  | .timedOut pid => (.error .commandTimeout, [.killProcess pid])

/-- Embedding of `executeInSession` (lines 92-105): look up the session,
update `lastUsed`, and dispatch on locality.  `events` feeds the local path,
`ro` the remote path. -/
def executeInSession (reg : Registry) (sessionName : Str) (cmdId : Nat)
    (command : Str) (now : Nat) (events : List SEvent) (ro : RemoteOutcome) :
    Except SessError SessionResult × Registry × List Effect :=
  match alookup reg sessionName with
  | none => (.error .sessionNotFound, reg, [])
  | some e =>
    let e1 := { e with info := { e.info with lastUsed := now } }
    let reg1 := aset reg sessionName e1
    if e1.info.isLocal then
      let (res, e2, effs) := executeInLocalSession e1 cmdId command events
      (res, aset reg1 sessionName e2, effs)
    else
      let (res, effs) := executeInRemoteSession e1 ro
      (res, reg1, effs)

/-- Characterization of `executeInSession` dispatching to a connected local
session: the result is determined by `runEvents`, the entry is rewritten with
only `lastUsed` updated, and the effects are attach, framed write, detach. -/
theorem executeInSession_local_spec (reg : Registry) (name : Str)
    (e : SessionEntry) (cmdId : Nat) (command : Str) (now : Nat)
    (events : List SEvent) (ro : RemoteOutcome) (pid : Nat)
    (hlook : alookup reg name = some e)
    (hloc : e.info.isLocal = true)
    (hconn : e.connected = true)
    (hproc : e.processId = some pid) :
    executeInSession reg name cmdId command now events ro =
      ((match runEvents cmdId initCapture events with
        | some r => .ok ⟨r.stdout, r.stderr, r.success,
            { e.info with lastUsed := now }⟩
        | none => .error .commandTimeout),
       aset (aset reg name { e with info := { e.info with lastUsed := now } })
         name { e with info := { e.info with lastUsed := now } },
       [.attachListeners, .writeStdin (wrappedCommand cmdId command),
        .detachListeners]) := by
  cases hrv : runEvents cmdId initCapture events <;>
    simp [executeInSession, hlook, hloc, executeInLocalSession, hproc, hconn,
      hrv]

/-- C5: a second `createSession` under an already-registered name fails with
`DuplicateSession` before any mutation — the registry, and hence the first
session's entry, is returned exactly unchanged with no effects; and any
failing create (duplicate, spawn error, initialization timeout) returns the
registry unchanged, so a failed create never leaves a partial entry under
the name. -/
theorem c5_create_duplicate_and_failure_frame (reg : Registry) (name : Str)
    (computerName : Option Str) (now : Nat) (outcome : InitOutcome) :
    (∀ e, alookup reg name = some e →
      createSession reg name computerName now outcome =
        (.error .duplicateSession, reg, []))
    ∧ (alookup reg name = none →
        createSession reg name none now .spawnError =
          (.error .sessionStartFailure, reg, [])
        ∧ ∀ pid, createSession reg name none now (.initTimeout pid) =
            (.error .sessionInitTimeout, reg, [.killProcess pid])) := by
  refine ⟨fun e he => ?_, fun hn => ⟨?_, fun pid => ?_⟩⟩
  · simp [createSession, he]
  · simp [createSession, hn]
  · simp [createSession, hn]

/-- Sample registered local session used by the concrete witnesses below. -/
def entA : SessionEntry :=
  ⟨⟨"a".data, .connected, "localhost".data, true, 0, 0⟩, some 7, true⟩

def regA : Registry := [("a".data, entA)]

/-- Witness for C5: duplicate create of `a` fails leaving the registry
unchanged, and a failed local create of fresh name `b` registers nothing. -/
theorem c5_create_duplicate_and_failure_frame_witness :
    alookup regA "a".data = some entA
    ∧ createSession regA "a".data none 5 (.ready 9) =
        (.error .duplicateSession, regA, [])
    ∧ alookup ([] : Registry) "b".data = none
    ∧ createSession ([] : Registry) "b".data none 5 .spawnError =
        (.error .sessionStartFailure, [], []) :=
  ⟨by decide,
    (c5_create_duplicate_and_failure_frame regA "a".data none 5 (.ready 9)).1
      entA (by decide),
    by decide,
    ((c5_create_duplicate_and_failure_frame [] "b".data none 5 (.ready 9)).2
      (by decide)).1⟩

/-- C6: `closeSession` is idempotent.  Closing a name that is not registered
is a no-op that completes without error and performs no effects, and a second
close immediately after a first one is always such a no-op, because a close
leaves the name unregistered. -/
theorem c6_close_idempotent (reg : Registry) (name : Str) (hwf : MapWF reg) :
    (alookup reg name = none → closeSession reg name = (reg, []))
    ∧ closeSession (closeSession reg name).1 name =
        ((closeSession reg name).1, []) := by
  constructor
  · intro h
    simp [closeSession, h]
  · cases hl : alookup reg name with
    | none => simp [closeSession, hl]
    | some e =>
      have h2 : alookup (adelete reg name) name = none :=
        alookup_adelete_self hwf name
      simp [closeSession, hl, h2]

/-- Witness for C6: closing absent name `b` is a no-op, and a double close of
registered name `a` performs nothing on the second call. -/
theorem c6_close_idempotent_witness :
    MapWF regA
    ∧ (alookup regA "b".data = none → closeSession regA "b".data = (regA, []))
    ∧ closeSession (closeSession regA "a".data).1 "a".data =
        ((closeSession regA "a".data).1, []) :=
  ⟨by decide,
    (c6_close_idempotent regA "b".data (by decide)).1,
    (c6_close_idempotent regA "a".data (by decide)).2⟩

/-- C3: when a local execution's timeout elapses before the end sentinel is
observed, the call rejects with `CommandTimeout`; its effects are exactly the
listener attach, the framed stdin write, and the `cleanup()` listener detach
— in particular no process kill; the session's registry entry keeps its
subprocess handle, connected flag, and state (only `lastUsed` was updated, by
the execute call itself before dispatch, not by the timeout); and a
subsequent execute on the same name is dispatched normally, resolving
whenever its own event stream carries the end sentinel. -/
theorem c3_local_timeout_preserves_session
    (reg : Registry) (name : Str) (e : SessionEntry)
    (cmdId cmdId2 : Nat) (command command2 : Str) (now now2 : Nat)
    (events events2 : List SEvent) (ro ro2 : RemoteOutcome) (pid : Nat)
    (hlook : alookup reg name = some e)
    (hloc : e.info.isLocal = true)
    (hconn : e.connected = true)
    (hproc : e.processId = some pid)
    (htimeout : runEvents cmdId initCapture events = none) :
    (executeInSession reg name cmdId command now events ro).1 =
        .error .commandTimeout
    ∧ (executeInSession reg name cmdId command now events ro).2.2 =
        [.attachListeners, .writeStdin (wrappedCommand cmdId command),
         .detachListeners]
    ∧ alookup (executeInSession reg name cmdId command now events ro).2.1 name =
        some { e with info := { e.info with lastUsed := now } }
    ∧ (∀ r2, runEvents cmdId2 initCapture events2 = some r2 →
        (executeInSession
            (executeInSession reg name cmdId command now events ro).2.1
            name cmdId2 command2 now2 events2 ro2).1 =
          .ok ⟨r2.stdout, r2.stderr, r2.success,
            { e.info with lastUsed := now2 }⟩) := by
  have h1 := executeInSession_local_spec reg name e cmdId command now events ro
    pid hlook hloc hconn hproc
  refine ⟨?_, ?_, ?_, ?_⟩
  · rw [h1]
    simp [htimeout]
  · rw [h1]
  · rw [h1]
    exact alookup_aset_self _ _ _
  · intro r2 hr2
    rw [h1]
    have h2 := executeInSession_local_spec
      (aset (aset reg name { e with info := { e.info with lastUsed := now } })
        name { e with info := { e.info with lastUsed := now } })
      name { e with info := { e.info with lastUsed := now } } cmdId2 command2
      now2 events2 ro2 pid (alookup_aset_self _ _ _) (by simp [hloc])
      (by simp [hconn]) (by simp [hproc])
    dsimp only
    rw [h2]
    simp [hr2]

/-- Sample connected local session used by the C3 witness. -/
def entS : SessionEntry :=
  ⟨⟨"s".data, .connected, "localhost".data, true, 0, 0⟩, some 11, true⟩

def regS : Registry := [("s".data, entS)]

/-- Witness for C3: the first execute on session `s` sees no sentinel and
times out; the second sees a full framed success and resolves. -/
theorem c3_local_timeout_preserves_session_witness :
    alookup regS "s".data = some entS
    ∧ runEvents 1 initCapture [.outData "partial".data] = none
    ∧ (executeInSession regS "s".data 1 "cmd".data 3
        [.outData "partial".data] .spawnFailed).1 = .error .commandTimeout
    ∧ (∀ r2, runEvents 2 initCapture
          [.outData "---START-2---\n".data, .outData "hi\n".data,
           .outData "---END-2---:SUCCESS\n".data] = some r2 →
        (executeInSession
            (executeInSession regS "s".data 1 "cmd".data 3
              [.outData "partial".data] .spawnFailed).2.1
            "s".data 2 "cmd2".data 4
            [.outData "---START-2---\n".data, .outData "hi\n".data,
             .outData "---END-2---:SUCCESS\n".data] .spawnFailed).1 =
          .ok ⟨r2.stdout, r2.stderr, r2.success,
            ⟨"s".data, .connected, "localhost".data, true, 0, 4⟩⟩) :=
  ⟨by decide, by decide,
    (c3_local_timeout_preserves_session regS "s".data entS 1 2 "cmd".data
      "cmd2".data 3 4 [.outData "partial".data]
      [.outData "---START-2---\n".data, .outData "hi\n".data,
       .outData "---END-2---:SUCCESS\n".data] .spawnFailed .spawnFailed 11
      (by decide) (by decide) (by decide) (by decide) (by decide)).1,
    (c3_local_timeout_preserves_session regS "s".data entS 1 2 "cmd".data
      "cmd2".data 3 4 [.outData "partial".data]
      [.outData "---START-2---\n".data, .outData "hi\n".data,
       .outData "---END-2---:SUCCESS\n".data] .spawnFailed .spawnFailed 11
      (by decide) (by decide) (by decide) (by decide) (by decide)).2.2.2⟩

/-- C7: in a remote-session execute whose bridging subprocess closes, the
result's success flag is exactly "exit code equals 0": code 0 yields success,
any other code (or a null code) yields failure, including when the captured
error text is empty. -/
theorem c7_remote_exit_code_success (e : SessionEntry) (so se : Str)
    (c : Option Int) :
    executeInRemoteSession e (.closed so se c) =
      (.ok ⟨trimStr so, trimStr se, decide (c = some 0), e.info⟩, [])
    ∧ (∀ code : Int, code ≠ 0 →
        (executeInRemoteSession e (.closed so [] (some code))).1 =
          .ok ⟨trimStr so, [], false, e.info⟩) := by
  constructor
  · simp only [executeInRemoteSession]
    cases c with
    | none => simp
    | some x => by_cases hx : x = 0 <;> simp [hx]
  · intro code hcode
    simp [executeInRemoteSession, hcode, trimStr]

/-- Witness for C7: exit code 2 with empty stderr still maps to failure. -/
theorem c7_remote_exit_code_success_witness :
    (2 : Int) ≠ 0 ∧
    (executeInRemoteSession
        ⟨⟨"r".data, .connected, "box".data, false, 0, 0⟩, none, true⟩
        (.closed "out".data [] (some 2))).1 =
      .ok ⟨"out".data, [], false,
        ⟨"r".data, .connected, "box".data, false, 0, 0⟩⟩ :=
  ⟨by decide,
    (c7_remote_exit_code_success
      ⟨⟨"r".data, .connected, "box".data, false, 0, 0⟩, none, true⟩
      "out".data [] (some 0)).2 2 (by decide)⟩

/- Aliasing model for `getSession` / `listSessions` (lines 110-119).  The
value model above cannot express JavaScript object identity, so here the
`info` objects live in a heap of references: each registry entry stores a
reference, `getSession` returns `this.sessions.get(name)?.info` — the stored
reference itself — while `listSessions` maps each entry through the object
spread `{ ...s.info }`, which allocates a fresh object holding a copy. -/

structure InfoHeap where
  next : Nat
  get : Nat → SessionInfo

/-- Assigning to a field of the object behind reference `r` (for example
`sessionInfo.state = "Disconnected"`): the heap now holds the mutated value
at `r`. -/
def heapWrite (h : InfoHeap) (r : Nat) (v : SessionInfo) : InfoHeap :=
  ⟨h.next, fun i => if i = r then v else h.get i⟩

/-- Allocating a fresh object with value `v` (the object spread). -/
def heapAlloc (h : InfoHeap) (v : SessionInfo) : InfoHeap × Nat :=
  (⟨h.next + 1, fun i => if i = h.next then v else h.get i⟩, h.next)

abbrev RefRegistry := List (Str × Nat)

/-- `getSession` (lines 110-112): `this.sessions.get(name)?.info` — returns
the stored reference, not a copy. -/
def getSession (reg : RefRegistry) (name : Str) : Option Nat := alookup reg name

/-- `listSessions` (lines 117-119):
`Array.from(this.sessions.values()).map(s => ({ ...s.info }))` — one fresh
copy per entry, in registry order. -/
def listSessions (h : InfoHeap) : RefRegistry → InfoHeap × List Nat
  | [] => (h, [])
  | (_, ref) :: rest =>
    let a := heapAlloc h (h.get ref)
    let rec2 := listSessions a.1 rest
    (rec2.1, a.2 :: rec2.2)

/-- The registry-visible info record of a session: the value behind the
stored reference. -/
def readInfo (h : InfoHeap) (reg : RefRegistry) (name : Str) :
    Option SessionInfo :=
  (alookup reg name).map h.get

theorem listSessions_get_lt (h : InfoHeap) (reg : RefRegistry) {i : Nat}
    (hi : i < h.next) : (listSessions h reg).1.get i = h.get i := by
  induction reg generalizing h with
  | nil => rfl
  | cons p rest ih =>
    obtain ⟨n, ref⟩ := p
    simp only [listSessions, heapAlloc]
    rw [ih _ (by simpa using Nat.lt_succ_of_lt hi)]
    simp [Nat.ne_of_lt hi]

theorem listSessions_refs_ge (h : InfoHeap) (reg : RefRegistry) :
    ∀ r ∈ (listSessions h reg).2, h.next ≤ r := by
  induction reg generalizing h with
  | nil => simp [listSessions]
  | cons p rest ih =>
    obtain ⟨n, ref⟩ := p
    simp only [listSessions, heapAlloc, List.mem_cons]
    rintro r (rfl | hr)
    · exact Nat.le_refl _
    · have := ih _ r hr
      simp only at this
      omega

/-- C4 (amended): `listSessions` returns snapshots — the copies are taken
from the stored records without disturbing them, and mutating any returned
copy leaves every stored record unchanged; `getSession`, by contrast,
returns the stored reference itself, so a mutation through it is visible in
the registry's own record. -/
theorem c4_list_snapshots_get_alias (h : InfoHeap) (reg : RefRegistry)
    (hwf : ∀ p ∈ reg, p.2 < h.next) :
    (∀ p ∈ reg, (listSessions h reg).1.get p.2 = h.get p.2)
    ∧ (∀ r ∈ (listSessions h reg).2, ∀ v, ∀ p ∈ reg,
        (heapWrite (listSessions h reg).1 r v).get p.2 =
          (listSessions h reg).1.get p.2)
    ∧ (∀ name r, getSession reg name = some r → ∀ v,
        readInfo (heapWrite h r v) reg name = some v) := by
  refine ⟨fun p hp => listSessions_get_lt h reg (hwf p hp), ?_, ?_⟩
  · intro r hr v p hp
    have h1 : h.next ≤ r := listSessions_refs_ge h reg r hr
    have h2 : p.2 < h.next := hwf p hp
    simp only [heapWrite]
    rw [if_neg (by omega)]
  · intro name r hr v
    simp only [readInfo, getSession] at hr ⊢
    simp [hr, heapWrite]

def infoA : SessionInfo := ⟨"a".data, .connected, "localhost".data, true, 0, 0⟩

def infoB : SessionInfo := { infoA with state := .disconnected }

/-- C4 counterexample: the claim asserts `getSession` returns a snapshot, but
it returns the stored reference.  In a registry holding session `a` whose
info object is reference `0`, writing a new state through the reference
returned by `getSession` changes the record the registry itself reads. -/
theorem c4_get_returns_live_reference_counterexample :
    getSession [("a".data, 0)] "a".data = some 0
    ∧ readInfo ⟨1, fun _ => infoA⟩ [("a".data, 0)] "a".data = some infoA
    ∧ readInfo (heapWrite ⟨1, fun _ => infoA⟩ 0 infoB) [("a".data, 0)]
        "a".data = some infoB
    ∧ infoB ≠ infoA :=
  ⟨rfl, rfl, rfl, by decide⟩

/-- Witness for C4 (amended) on a one-session registry. -/
theorem c4_list_snapshots_get_alias_witness :
    (∀ p ∈ ([("a".data, 0)] : RefRegistry), p.2 < 1)
    ∧ ((∀ p ∈ ([("a".data, 0)] : RefRegistry),
          (listSessions ⟨1, fun _ => infoA⟩ [("a".data, 0)]).1.get p.2 =
            (⟨1, fun _ => infoA⟩ : InfoHeap).get p.2)
      ∧ (∀ r ∈ (listSessions ⟨1, fun _ => infoA⟩ [("a".data, 0)]).2, ∀ v,
          ∀ p ∈ ([("a".data, 0)] : RefRegistry),
            (heapWrite (listSessions ⟨1, fun _ => infoA⟩ [("a".data, 0)]).1 r v).get
                p.2 =
              (listSessions ⟨1, fun _ => infoA⟩ [("a".data, 0)]).1.get p.2)
      ∧ (∀ name r, getSession ([("a".data, 0)] : RefRegistry) name = some r →
          ∀ v, readInfo (heapWrite ⟨1, fun _ => infoA⟩ r v) [("a".data, 0)]
              name = some v)) :=
  ⟨by decide,
    c4_list_snapshots_get_alias ⟨1, fun _ => infoA⟩ [("a".data, 0)]
      (by decide)⟩

/- Background-job registry embedding (powershell.ts `registerJobHelpers`).
The `jobs` map lives in extension memory; `stop`/`remove` issue their OS
actions through one-shot `executePowerShell` calls, modelled as effects. -/

structure TrackedJob where
  pid : Nat
  name : Str
  command : Str
  workingDirectory : Str
  stdoutFile : Option Str
  stderrFile : Option Str
  startedAt : Nat
deriving DecidableEq

abbrev JobsMap := List (Str × TrackedJob)

/-- OS-visible actions of a job-control call, in order. -/
inductive JobEffect where
  | stopProcess (pid : Nat)
  | deleteFiles (paths : List Str)
deriving DecidableEq

/-- `pwsh-stop-job` execute (lines 452-458): look up the job; if present,
issue `Stop-Process -Id pid -Force` and report success.  The registry record
is not touched and no files are removed. -/
def stopJob (jobs : JobsMap) (name : Str) : JobsMap × List JobEffect × Bool :=
  match alookup jobs name with
  | none => (jobs, [], false)
  | some job => (jobs, [.stopProcess job.pid], true)

/-- `pwsh-remove-job` execute (lines 472-481): look up the job; if present,
optionally force-stop it, `Remove-Item` the non-null output files (skipped
when the joined file list is empty), and delete the record. -/
def removeJob (jobs : JobsMap) (name : Str) (force : Bool) :
    JobsMap × List JobEffect × Bool :=
  match alookup jobs name with
  | none => (jobs, [], false)
  | some job =>
    let stopEffs := if force then [JobEffect.stopProcess job.pid] else []
    let files := [job.stdoutFile, job.stderrFile].filterMap id
    let delEffs :=
      if files.isEmpty then [] else [JobEffect.deleteFiles files]
    (adelete jobs name, stopEffs ++ delEffs, true)

/-- C8: `stop` leaves a tracked job's registry record — pid, name, command,
output-file paths, start timestamp — exactly in place (the whole map is
unchanged) and deletes no files; only `remove` unregisters the record, and it
is the operation that deletes the job's output files. -/
theorem c8_stop_preserves_record_remove_deletes (jobs : JobsMap) (name : Str)
    (job : TrackedJob) (hwf : MapWF jobs)
    (h : alookup jobs name = some job) :
    stopJob jobs name = (jobs, [.stopProcess job.pid], true)
    ∧ (∀ force, alookup (removeJob jobs name force).1 name = none)
    ∧ (removeJob jobs name false).2.1 =
        (if ([job.stdoutFile, job.stderrFile].filterMap id).isEmpty then []
         else [JobEffect.deleteFiles
            ([job.stdoutFile, job.stderrFile].filterMap id)])
    ∧ (removeJob jobs name false).1 = adelete jobs name := by
  refine ⟨by simp [stopJob, h], fun force => ?_, by simp [removeJob, h],
    by simp [removeJob, h]⟩
  have : (removeJob jobs name force).1 = adelete jobs name := by
    simp [removeJob, h]
  rw [this]
  exact alookup_adelete_self hwf name

def jobJ : TrackedJob :=
  ⟨42, "j".data, "run".data, "wd".data, some "out.log".data, none, 0⟩

/-- Witness for C8 on a registry tracking job `j` with a default stdout log
and merged stderr. -/
theorem c8_stop_preserves_record_remove_deletes_witness :
    MapWF [("j".data, jobJ)]
    ∧ alookup [("j".data, jobJ)] "j".data = some jobJ
    ∧ stopJob [("j".data, jobJ)] "j".data =
        ([("j".data, jobJ)], [.stopProcess 42], true)
    ∧ (∀ force,
        alookup (removeJob [("j".data, jobJ)] "j".data force).1 "j".data =
          none)
    ∧ (removeJob [("j".data, jobJ)] "j".data false).2.1 =
        [JobEffect.deleteFiles ["out.log".data]] :=
  ⟨by decide, by decide,
    (c8_stop_preserves_record_remove_deletes [("j".data, jobJ)] "j".data jobJ
      (by decide) (by decide)).1,
    (c8_stop_preserves_record_remove_deletes [("j".data, jobJ)] "j".data jobJ
      (by decide) (by decide)).2.1,
    (c8_stop_preserves_record_remove_deletes [("j".data, jobJ)] "j".data jobJ
      (by decide) (by decide)).2.2.1⟩

/- Embedding of `executePowerShellDirect` / `executePowerShell`
(powershell.ts lines 40-106).  The promise executor only ever calls
`resolve`: the model is a total function into the plain result record, with
the subprocess's observable behaviour (close, spawn error, or neither before
the timeout) as a parameter.  `timeout` is the millisecond budget rendered
into the timeout message; the `timedOut` outcome presupposes `timeout > 0`,
since otherwise no timer is armed. -/

/-- The plain `{stdout, stderr, exitCode, success}` result record. -/
structure PowerShellResult where
  stdout : Str
  stderr : Str
  exitCode : Int
  success : Bool
deriving DecidableEq

/-- Observable subprocess behaviour of one direct execution: the `close`
event fires before the timeout (with captured output and exit code, possibly
null), the `error` event fires (spawn failure), or the timeout fires first. -/
inductive DirectOutcome where
  | completed (stdoutAcc stderrAcc : Str) (code : Option Int)
  | timedOut (stdoutAcc stderrAcc : Str)
  | spawnFailed (stdoutAcc stderrAcc msg : Str)
deriving DecidableEq

/-- Embedding of `executePowerShellDirect` (lines 40-86): every path calls
`resolve` with a plain record — trimmed output with `code ?? 0` on close,
untrimmed accumulators with exit code `-1` and an appended timeout message on
timeout, and exit code `-1` with the spawn error message as stderr on an
`error` event. -/
def executePowerShellDirect (timeout : Nat) (o : DirectOutcome) :
    PowerShellResult :=
  match o with
  | .completed so se c =>
    ⟨trimStr so, trimStr se, c.getD 0, (c.getD 0) == 0⟩
  | .timedOut so se =>
    ⟨so, se ++ "\nCommand timed out after ".data ++ natChars timeout
        ++ "ms".data, -1, false⟩
  | .spawnFailed so _se msg =>
    ⟨so, "Failed to start PowerShell: ".data ++ msg, -1, false⟩

/-- The batch-file retry test of `executePowerShell` (lines 97-99). -/
def isWin32Error (stderr : Str) : Bool :=
  occursIn "no es una aplicación Win32 válida".data stderr
  || occursIn "is not a valid Win32 application".data stderr
  || occursIn "cannot run due to the error".data stderr

/-- Embedding of `executePowerShell` (lines 91-106): run directly; if the
result failed with a batch-file error, retry once with `cmd /c`; otherwise
return the first result.  `retryOutcome` is the retry subprocess's observable
behaviour. -/
def executePowerShell (timeout : Nat)
    (firstOutcome retryOutcome : DirectOutcome) : PowerShellResult :=
  let firstResult := executePowerShellDirect timeout firstOutcome
  if !firstResult.success && isWin32Error firstResult.stderr then
    executePowerShellDirect timeout retryOutcome
  else firstResult

/-- C9: `executePowerShellDirect` (and `executePowerShell` above it) always
resolves with a plain result record and never rejects — the model is total —
and the failure paths carry the documented shape: a spawn failure resolves
with exit code `-1`, `success = false`, and the spawn error message as
stderr; a timeout resolves with exit code `-1`, `success = false`, and a
timed-out message appended to the captured stderr; a close resolves with the
trimmed output and `success` exactly when the (null-defaulted) exit code is
zero; and the wrapper always returns one of the two direct results. -/
theorem c9_direct_execution_always_resolves (t : Nat) :
    (∀ so se msg, executePowerShellDirect t (.spawnFailed so se msg) =
      ⟨so, "Failed to start PowerShell: ".data ++ msg, -1, false⟩)
    ∧ (∀ so se, executePowerShellDirect t (.timedOut so se) =
      ⟨so, se ++ "\nCommand timed out after ".data ++ natChars t ++ "ms".data,
        -1, false⟩)
    ∧ (∀ so se c, executePowerShellDirect t (.completed so se c) =
      ⟨trimStr so, trimStr se, c.getD 0, decide (c.getD 0 = 0)⟩)
    ∧ (∀ o ro, executePowerShell t o ro = executePowerShellDirect t ro
        ∨ executePowerShell t o ro = executePowerShellDirect t o) := by
  refine ⟨fun so se msg => rfl, fun so se => rfl, fun so se c => ?_,
    fun o ro => ?_⟩
  · by_cases hc : c.getD 0 = 0 <;> simp [executePowerShellDirect, hc]
  · simp only [executePowerShell]
    by_cases hb : (!(executePowerShellDirect t o).success
        && isWin32Error (executePowerShellDirect t o).stderr) = true
    · rw [if_pos hb]
      exact Or.inl rfl
    · rw [if_neg (by simp [hb])]
      exact Or.inr rfl
